import Mathlib

/-!
# Verification of the hClient key-management and call-signing core

This file shallowly embeds the core of the hClient library
(`src/index.ts`, `src/keyManagement.ts`, `src/dpki-ultralite/index.ts`,
`src/dpki-ultralite/keypair.js`) and proves the frozen specification
claims about it.

Modelling conventions:

* JavaScript promises are modelled by the three-valued outcome type
  `POut`: a promise either resolves (`ok`), rejects (`err`), or never
  settles (`hang`).  The codebase frequently performs fallible work
  inside a `.then` callback of an inner promise while the outer
  `new Promise` executor holds the only `resolve`/`reject`; an
  exception thrown there rejects the *inner* (unobserved) chain and
  leaves the outer promise forever pending, which we model as `hang`.
* libsodium primitives are modelled symbolically (a Dolev-Yao style
  term algebra `Val`): key derivation, AEAD and signatures are
  injective constructors, AEAD decryption succeeds exactly when key,
  nonce and associated data match (the perfect-authentication
  idealisation of XChaCha20-Poly1305), and signature verification
  succeeds exactly on signatures made with the matching seed's
  private key.
* Randomness (`randombytes_buf` salts/nonces, the ephemeral symmetric
  secret) is threaded as explicit parameters of the operations that
  draw it.
* `msgpack.encode`/`decode` and `Buffer.from`/`sodium.to_string` are
  modelled as the evident injections; byte buffers and their decoded
  structures are identified where the code round-trips them
  immediately.
* JavaScript `undefined`/`null` and truthiness are modelled explicitly
  (`Val.undef`, `Val.null`, `truthy`).
-/

/-- Outcome of a JavaScript promise: resolved, rejected, or forever
pending (the code under verification leaks exceptions thrown inside
inner `.then` callbacks, leaving the outer promise unsettled). -/
inductive POut (α : Type) where
  | ok (a : α)
  | err (e : String)
  | hang
deriving DecidableEq, Repr

namespace POut

def bind {α β : Type} : POut α → (α → POut β) → POut β
  | ok a, f => f a
  | err e, _ => err e
  | hang, _ => hang

instance : Monad POut where
  pure := ok
  bind := bind

end POut

/-- Symbolic universe of the JavaScript values flowing through the
library: primitives, byte buffers, and the opaque outputs of the
libsodium operations, modelled as a free term algebra. -/
inductive Val where
  /-- JavaScript `undefined`. -/
  | undef
  /-- JavaScript `null`. -/
  | null
  /-- a JavaScript string -/
  | str (s : String)
  /-- a byte buffer (`Uint8Array`) with concrete contents -/
  | bytes (bs : List Nat)
  /-- `crypto_sign_seed_keypair(seed).publicKey` -/
  | signPub (seed : Val)
  /-- `crypto_sign_seed_keypair(seed).privateKey` -/
  | signPriv (seed : Val)
  /-- `crypto_kx_seed_keypair(seed).publicKey` -/
  | encPub (seed : Val)
  /-- `crypto_kx_seed_keypair(seed).privateKey` -/
  | encPriv (seed : Val)
  /-- `encodeId signPub encPub`: base64url of the 32+32 byte
  concatenation; injective because both halves are fixed width. -/
  | idStr (sp ep : Val)
  /-- `new Encoding('hcs0').encode v` (hcid encoding of a sign pubkey) -/
  | hcs0 (v : Val)
  /-- `crypto_sign_detached data signPriv(seed)` -/
  | sig (data : Val) (seed : Val)
  /-- the kx session key shared between server seed and client seed
  (`sharedTx` on the server side = `sharedRx` on the client side) -/
  | sessionKey (serverSeed clientSeed : Val)
  /-- `crypto_pwhash` (Argon2id) of a passphrase with a salt -/
  | pwhash (pass : String) (salt : Val)
  /-- `crypto_aead_xchacha20poly1305_ietf_encrypt msg ad _ nonce key` -/
  | aead (msg ad nonce key : Val)
  /-- `msgpack.encode` of a structured value -/
  | packed (v : Val)
  /-- the four-element key array `[signPub, encPub, signPriv, encPriv]`
  serialised by `getBundle` -/
  | keyArr (sp ep ssk esk : Val)
  /-- the `{salt, nonce, cipher}` object produced by `pwEnc` -/
  | snc (salt nonce cipher : Val)
  /-- `toBase64 v` (base64, ORIGINAL variant) -/
  | b64 (v : Val)
  /-- `JSON.stringify({method, params})` — the canonical call
  serialisation signed by `_preCall` -/
  | jsonStr (method : String) (params : Val)
  /-- the `{agentId}` parameter object of `holo/identify` -/
  | objAgentId (agentId : Val)
  /-- the `{signature, requestId}` parameter object of
  `holo/clientSignature` -/
  | objSignature (signature : Val) (requestId : String)
deriving DecidableEq, Repr

namespace Val

/-- JavaScript truthiness of the modelled values.  `undefined`, `null`,
the empty string (and no byte buffer: typed arrays are objects) are
falsy. -/
def truthy : Val → Bool
  | undef => false
  | null => false
  | str s => s ≠ ""
  | _ => true

end Val

/-- JavaScript `a || null` as used for the optional associated-data
arguments. -/
def jsOrNull (a : Val) : Val := if a.truthy then a else Val.null

/-! ## dpki-ultralite utility functions (`src/dpki-ultralite/index.ts`) -/

/-- `encodeId(signPub, encPub)`: base64url of the concatenated public
keys.  Always resolves. -/
def encodeId (sp ep : Val) : Val := Val.idStr sp ep

/-- `decodeId(id)`: splits an identity string back into
`{signPub, encPub}`.  A value that is not an identity string makes
`from_base64`/slicing throw inside the `ready.then` callback, leaving
the promise pending. -/
def decodeId : Val → POut (Val × Val)
  | Val.idStr sp ep => POut.ok (sp, ep)
  | _ => POut.hang

/-- `crypto_sign_verify_detached(signature, data, signPub)`: true
exactly for a detached signature of `data` under the signing key
derived from the same seed as `signPub`. -/
def signVerifyDetached (signature data pub : Val) : Bool :=
  match signature with
  | Val.sig d s => d = data ∧ pub = Val.signPub s
  | _ => false

/-- `verify(signature, data, signerId)`: decode the identity string,
then verify against its signing public key. -/
def verify (signature data signerId : Val) : POut Bool :=
  match decodeId signerId with
  | POut.ok (sp, _) => POut.ok (signVerifyDetached signature data sp)
  | POut.err e => POut.err e
  | POut.hang => POut.hang

/-- `pwHash(pass, salt)` with an explicitly supplied salt (the random
default is threaded by callers): Argon2id with the library's fixed
parameters, modelled as an injective symbolic hash. -/
def pwHash (pass : String) (salt : Val) : Val := Val.pwhash pass salt

/-- `crypto_aead_xchacha20poly1305_ietf_encrypt(msg, ad, null, nonce,
key)`. -/
def aeadEncrypt (msg ad nonce key : Val) : Val := Val.aead msg ad nonce key

/-- `crypto_aead_xchacha20poly1305_ietf_decrypt(null, cipher, ad,
nonce, key)`: succeeds exactly when the ciphertext was produced with
the same key, nonce and associated data (perfect authentication);
`none` models the thrown authentication failure. -/
def aeadDecrypt (cipher ad nonce key : Val) : Option Val :=
  match cipher with
  | Val.aead m a n k => if a = ad ∧ n = nonce ∧ k = key then some m else none
  | _ => none

/-- `msgpack.encode`. -/
def mpEncode (v : Val) : Val := Val.packed v

/-- `msgpack.decode`. -/
def mpDecode : Val → Option Val
  | Val.packed v => some v
  | _ => none

/-- `toBase64` (always resolves). -/
def toBase64 (v : Val) : Val := Val.b64 v

/-- `fromBase64`: inverts `toBase64`; anything else throws. -/
def fromBase64 : Val → POut Val
  | Val.b64 v => POut.ok v
  | _ => POut.hang

/-- `crypto_kx_server_session_keys(myPub, myPriv, theirPub).sharedTx`:
the sender side of the key exchange.  The public-key argument is
always the one matching `myPriv` in this codebase, so the session key
is determined by the two seeds.  Mismatched key types make libsodium
throw inside the surrounding `.then`, hence `hang`. -/
def kxServerTx (_myPub myPriv theirPub : Val) : POut Val :=
  match myPriv, theirPub with
  | Val.encPriv s, Val.encPub c => POut.ok (Val.sessionKey s c)
  | _, _ => POut.hang

/-- `crypto_kx_client_session_keys(myPub, myPriv, theirPub).sharedRx`:
the recipient side of the key exchange; agrees with the sender's
`sharedTx`. -/
def kxClientRx (_myPub myPriv theirPub : Val) : POut Val :=
  match myPriv, theirPub with
  | Val.encPriv c, Val.encPub s => POut.ok (Val.sessionKey s c)
  | _, _ => POut.hang

/-- `pwEnc(data, passphrase)` with the randomly drawn salt and nonce
threaded explicitly: Argon2id-derive a secret from the passphrase and
fresh salt, AEAD-encrypt, and msgpack the `{salt, nonce, cipher}`
record.  (`adata` is absent at the call sites, hence `null`.) -/
def pwEnc (data : Val) (passphrase : String) (salt nonce : Val) : POut Val :=
  let secret := pwHash passphrase salt
  POut.ok (mpEncode (Val.snc salt nonce (aeadEncrypt data Val.null nonce secret)))

/-- `pwDec(data, passphrase)`: decode the `{salt, nonce, cipher}`
record, re-derive the secret from the stored salt and AEAD-decrypt.
An authentication failure throws inside the inner `ready.then`
callback while the outer promise holds the only `resolve`, so the
promise never settles (`hang`). -/
def pwDec (data : Val) (passphrase : String) : POut Val :=
  match mpDecode data with
  | none => POut.err "msgpack decode failure"
  | some v =>
    match v with
    | Val.snc salt nonce cipher =>
      let secret := pwHash passphrase salt
      match aeadDecrypt cipher Val.null nonce secret with
      | some plain => POut.ok plain
      | none => POut.hang
    | _ => POut.err "malformed pwEnc record"

/-! ## The Keypair primitive (`src/dpki-ultralite/keypair.js`) -/

/-- The `Keypair` class: an identity string plus the four key fields.
Fields hold `Val.undef` when absent (public-only keypairs). -/
structure Keypair where
  pubkeys : Val
  signPub : Val
  encPub : Val
  signPriv : Val
  encPriv : Val
deriving DecidableEq, Repr

namespace Keypair

/-- `Keypair.newFromSeed(seed)`: derive the signing and key-exchange
pairs from the seed and encode the identity string from the two
public halves. -/
def newFromSeed (seed : Val) : Keypair :=
  { pubkeys := encodeId (Val.signPub seed) (Val.encPub seed)
    signPub := Val.signPub seed
    encPub := Val.encPub seed
    signPriv := Val.signPriv seed
    encPriv := Val.encPriv seed }

/-- `getId()`. -/
def getId (kp : Keypair) : Val := kp.pubkeys

/-- `sign(data)`: synchronous throw when the private signing key is
absent (falsy), otherwise a detached signature.  A truthy but
malformed key would make libsodium throw inside `ready.then`
(`hang`). -/
def sign (kp : Keypair) (data : Val) : POut Val :=
  if ¬ kp.signPriv.truthy then POut.err "no signPriv - cannot sign data"
  else
    match kp.signPriv with
    | Val.signPriv s => POut.ok (Val.sig data s)
    | _ => POut.hang

/-- `verify(signature, data)` on a keypair verifies against its own
identity string. -/
def verifyWith (kp : Keypair) (signature data : Val) : POut Bool :=
  verify signature data kp.pubkeys

end Keypair

/-! ## keyManagement (`src/keyManagement.ts`) -/

/-- `XorUint8Array(a, b)`: the result has `a`'s length and each entry
is the XOR of the corresponding entries (a missing `b` entry reads as
JavaScript `undefined`, which coerces to 0 under `^`). -/
def XorUint8Array (a b : List Nat) : List Nat :=
  (List.range a.length).map (fun i => (a.getD i 0) ^^^ (b.getD i 0))

/-- `salt.slice(0, 16)` on a byte buffer. -/
def slice16 : Val → Val
  | Val.bytes bs => Val.bytes (bs.take 16)
  | v => v

/-- `regenerateReadwriteKeypair(email, password)`, with the outcome of
`getRegisteredSaltCallback(email)` passed explicitly.  A rejected
salt lookup is caught, logged (`'No salt found. Unable to log in.'`)
and the function resolves with the (undefined) result of
`console.error`; a falsy salt also falls through to `undefined`. -/
def regenerateReadwriteKeypair (saltResult : POut Val) (password : String) :
    POut (Option Keypair) :=
  match saltResult with
  | POut.err _ => POut.ok none
  | POut.hang => POut.hang
  | POut.ok registeredSalt =>
    if registeredSalt.truthy then
      let hash := pwHash password (slice16 registeredSalt)
      POut.ok (some (Keypair.newFromSeed hash))
    else
      POut.ok none

/-! ## Bundle persistence (`keypair.js` getBundle / fromBundle) -/

/-- The persistence bundle object returned by `getBundle`. -/
structure Bundle where
  type : String
  hint : String
  data : Val
deriving DecidableEq, Repr

instance : Inhabited Bundle := ⟨⟨"", "", Val.undef⟩⟩

/-- msgpack-lite serialises JavaScript `undefined` as nil, which
decodes back as `null`. -/
def mpNorm (v : Val) : Val := if v = Val.undef then Val.null else v

namespace Keypair

/-- `getBundle(passphrase, hint)`: msgpack the four key fields,
password-encrypt them with `pwEnc` (whose random salt and nonce are
threaded explicitly) and tag the result.  The `typeof hint` guard
cannot fail in this typed model. -/
def getBundle (kp : Keypair) (passphrase hint : String) (salt nonce : Val) :
    POut Bundle :=
  match pwEnc
      (mpEncode (Val.keyArr (mpNorm kp.signPub) (mpNorm kp.encPub)
        (mpNorm kp.signPriv) (mpNorm kp.encPriv)))
      passphrase salt nonce with
  | POut.ok data => POut.ok { type := "hcKeypair", hint := hint, data := data }
  | POut.err e => POut.err e
  | POut.hang => POut.hang

/-- `Keypair.fromBundle(bundle, passphrase)`: password-decrypt the
`data` field, msgpack-decode the key array and rebuild the keypair,
re-encoding the identity string from the two public halves.  A
malformed decrypted payload throws inside a `.then` callback
(`hang`). -/
def fromBundle (bundle : Bundle) (passphrase : String) : POut Keypair :=
  match pwDec bundle.data passphrase with
  | POut.ok encoded =>
    match mpDecode encoded with
    | some (Val.keyArr sp ep ssk esk) =>
      POut.ok { pubkeys := encodeId sp ep, signPub := sp, encPub := ep
                signPriv := ssk, encPriv := esk }
    | _ => POut.hang
  | POut.err e => POut.err e
  | POut.hang => POut.hang

/-- Well-formedness maintained by both keypair constructors in the
repository (`newFromSeed` and `fromBundle`): the identity string
encodes exactly the two public halves, and — for a keypair holding
private material — all four key fields are present. -/
def wf (kp : Keypair) : Prop :=
  kp.pubkeys = encodeId kp.signPub kp.encPub ∧
  kp.signPub ≠ Val.undef ∧ kp.encPub ≠ Val.undef ∧
  kp.signPriv ≠ Val.undef ∧ kp.encPriv ≠ Val.undef

instance (kp : Keypair) : Decidable kp.wf := by
  unfold wf; infer_instance

end Keypair

/-- Extract the resolved value of a promise outcome, with a default. -/
def POut.getD {α : Type} : POut α → α → α
  | POut.ok a, _ => a
  | _, d => d

/-! ## Claim theorems: C8 -/

/-- Pointwise description of the XOR combiner. -/
theorem XorUint8Array_getD (a b : List Nat) (i : Nat) (h : i < a.length) :
    (XorUint8Array a b).getD i 0 = (a.getD i 0) ^^^ (b.getD i 0) := by
  have hl : i < (XorUint8Array a b).length := by simpa [XorUint8Array] using h
  rw [List.getD_eq_getElem _ _ hl]
  simp [XorUint8Array]

/-- C8: for 32-byte arrays `a` and `b`,
`combine(combine(a, b), b) = a` — the entropy combiner
`XorUint8Array` is bytewise XOR and self-inverse in its second
argument. -/
theorem xor_combine_self_inverse (a b : List Nat)
    (ha : a.length = 32) (hb : b.length = 32) :
    XorUint8Array (XorUint8Array a b) b = a := by
  have hlen : (XorUint8Array a b).length = a.length := by
    simp [XorUint8Array]
  apply List.ext_getElem
  · simp [XorUint8Array]
  · intro i h1 h2
    rw [← List.getD_eq_getElem _ 0 h1, ← List.getD_eq_getElem a 0 h2]
    rw [XorUint8Array_getD _ _ _ (by omega), XorUint8Array_getD _ _ _ h2]
    rw [Nat.xor_assoc, Nat.xor_self, Nat.xor_zero]

/-- C8 witness: concrete 32-byte arrays. -/
theorem xor_combine_self_inverse_witness :
    XorUint8Array (XorUint8Array (List.range 32) (List.replicate 32 170))
      (List.replicate 32 170) = List.range 32 :=
  xor_combine_self_inverse (List.range 32) (List.replicate 32 170)
    (by decide) (by decide)

/-! ## Claim theorems: C2 (bundle round trip / wrong passphrase) -/

/-- C2 (amended): `fromBundle(getBundle(k, p, h), p)` reconstructs the
keypair exactly (identical identity string and private fields).  With
a wrong passphrase the AEAD authentication fails, so no plaintext —
corrupted or otherwise — is ever produced; however the failure is not
surfaced as an `AuthDecryptionFailure` rejection: the exception is
thrown inside an inner `.then` callback and the returned promise
never settles. -/
theorem bundle_roundtrip_and_wrong_passphrase
    (kp : Keypair) (p wrongP hint : String) (salt nonce : Val)
    (hwf : kp.wf) (hne : wrongP ≠ p) :
    (kp.getBundle p hint salt nonce).bind (fun b => Keypair.fromBundle b p)
      = POut.ok kp ∧
    (kp.getBundle p hint salt nonce).bind (fun b => Keypair.fromBundle b wrongP)
      = POut.hang := by
  obtain ⟨pk, sp, ep, ssk, esk⟩ := kp
  obtain ⟨hpub, h1, h2, h3, h4⟩ := hwf
  simp only [encodeId] at hpub
  subst hpub
  constructor
  · simp [Keypair.getBundle, pwEnc, Keypair.fromBundle, pwDec, mpDecode,
      mpEncode, aeadDecrypt, mpNorm, POut.bind, encodeId, pwHash,
      aeadEncrypt, h1, h2, h3, h4]
  · simp [Keypair.getBundle, pwEnc, Keypair.fromBundle, pwDec, mpDecode,
      mpEncode, aeadDecrypt, mpNorm, POut.bind, encodeId, pwHash,
      aeadEncrypt, Ne.symm hne]

/-- C2 witness: a concrete seed-derived keypair round-trips through a
bundle under passphrase `"pw"`. -/
theorem bundle_roundtrip_witness :
    (Keypair.newFromSeed (Val.bytes [5])).wf ∧ ("x" : String) ≠ "pw" ∧
    ((Keypair.newFromSeed (Val.bytes [5])).getBundle "pw" "hint"
        (Val.bytes [6]) (Val.bytes [7])).bind
      (fun b => Keypair.fromBundle b "pw")
      = POut.ok (Keypair.newFromSeed (Val.bytes [5])) :=
  ⟨by decide, by decide,
    (bundle_roundtrip_and_wrong_passphrase (Keypair.newFromSeed (Val.bytes [5]))
      "pw" "x" "hint" (Val.bytes [6]) (Val.bytes [7])
      (by decide) (by decide)).1⟩

/-- C2 counterexample: with the wrong passphrase, `fromBundle` does
not reject with an authenticated-decryption error — its promise never
settles (`hang`), while the correct passphrase resolves the original
keypair. -/
theorem bundle_wrong_passphrase_never_settles_counterexample :
    Keypair.fromBundle
      (((Keypair.newFromSeed (Val.bytes [1])).getBundle "pw" "h"
        (Val.bytes [2]) (Val.bytes [3])).getD default) "wrong" = POut.hang ∧
    Keypair.fromBundle
      (((Keypair.newFromSeed (Val.bytes [1])).getBundle "pw" "h"
        (Val.bytes [2]) (Val.bytes [3])).getD default) "pw"
      = POut.ok (Keypair.newFromSeed (Val.bytes [1])) := by
  decide

/-! ## Claim theorems: C9 (bundle on-disk shape) -/

/-- C9 counterexample: the bundle's type tag is `"hcKeypair"`, not
`"keypair-bundle"` as claimed. -/
theorem bundle_type_tag_counterexample :
    (((Keypair.newFromSeed (Val.bytes [1])).getBundle "pw" "h"
      (Val.bytes [2]) (Val.bytes [3])).getD default).type = "hcKeypair" ∧
    "hcKeypair" ≠ "keypair-bundle" := by
  decide

/-- C9 (amended): the bundle produced by `getBundle` has shape
`{type: "hcKeypair", hint, data}` where `data` is the msgpack
encoding of a `{salt, nonce, cipher}` record holding the raw salt and
nonce (no base64 transport encoding at this layer) and an AEAD
ciphertext of the msgpacked four key fields under the
passphrase-derived secret. -/
theorem getBundle_shape (kp : Keypair) (p hint : String) (salt nonce : Val) :
    ∃ b cipher, kp.getBundle p hint salt nonce = POut.ok b ∧
      b.type = "hcKeypair" ∧ b.hint = hint ∧
      mpDecode b.data = some (Val.snc salt nonce cipher) ∧
      aeadDecrypt cipher Val.null nonce (pwHash p salt)
        = some (mpEncode (Val.keyArr (mpNorm kp.signPub) (mpNorm kp.encPub)
            (mpNorm kp.signPriv) (mpNorm kp.encPriv))) := by
  refine ⟨_, _, rfl, rfl, rfl, rfl, ?_⟩
  simp [aeadDecrypt, aeadEncrypt]

/-! ## Claim theorems: C5 (regenerate with no registered salt) -/

/-- C5 counterexample: when the salt lookup rejects (no registration
found), `regenerateReadwriteKeypair` does not propagate a rejection —
it catches the error, logs it, and resolves successfully with
`undefined`. -/
theorem regenerate_no_salt_resolves_counterexample :
    regenerateReadwriteKeypair (POut.err "no registration found") "pw"
      = POut.ok none := by
  decide

/-- C5 (amended): with no previously registered salt — whether the
salt lookup rejects or yields nothing — `regenerateReadwriteKeypair`
produces no keypair, but the failure is only logged
(`'No salt found. Unable to log in.'`): the operation resolves with
`undefined` instead of rejecting. -/
theorem regenerate_no_salt_no_keypair (e password : String) :
    regenerateReadwriteKeypair (POut.err e) password = POut.ok none ∧
    regenerateReadwriteKeypair (POut.ok Val.undef) password = POut.ok none :=
  ⟨rfl, rfl⟩

/-! ## Session / signing-wormhole manager (`src/index.ts`) -/

/-- The event name string `agent/<agentId>/sign`.  Two event names are
equal exactly when the interpolated agent identifiers are equal. -/
structure SignEventName where
  agentId : Val
deriving DecidableEq, Repr

/-- The stub websocket channel: the log of `call(method, params)`
invocations, the list of `subscribe`d event names, and the registered
`on` handlers.  Every handler registered by `sendClientSignature` has
the same body (it reads the module-level `keypair` at event time), so
a handler is identified by the event name it was registered for. -/
structure WsState where
  calls : List (String × Val)
  subs : List SignEventName
  handlers : List SignEventName
deriving DecidableEq, Repr

/-- The hClient module state: the module-level `keypair` and
`websocket` variables (undefined until assigned) and `_happId`. -/
structure HState where
  keypair : Option Keypair
  websocket : Option WsState
  happId : Option String
deriving DecidableEq, Repr

/-- `getCurrentAgentId()`: `undefined` when no keypair is bound,
otherwise the hcs0 (hcid) encoding of the *signing* public key only. -/
def getCurrentAgentId (st : HState) : Option Val :=
  match st.keypair with
  | none => none
  | some kp => some (Val.hcs0 kp.signPub)

/-- `sendClientSignature(kp)`: assign the module-level `keypair`
(before any check), then — if a websocket is open — announce the
identity via `holo/identify`, subscribe to `agent/<agentId>/sign` and
register the signing handler for that event.  Nothing is ever
unsubscribed.  With no websocket it throws after having already
replaced the keypair. -/
def sendClientSignature (st : HState) (kp : Keypair) : HState × POut Unit :=
  let st1 : HState := { st with keypair := some kp }
  match st1.websocket with
  | none =>
    (st1, POut.err "Could not register callback as no valid websocket instance found")
  | some ws =>
    let agentId := Val.hcs0 kp.signPub
    let event : SignEventName := ⟨agentId⟩
    let ws1 : WsState :=
      { ws with
        calls := ws.calls ++ [("holo/identify", Val.objAgentId agentId)]
        subs := ws.subs ++ [event]
        handlers := ws.handlers ++ [event] }
    ({ st1 with websocket := some ws1 }, POut.ok ())

/-- Body of the handler registered by `sendClientSignature` for a
`{entry, id}` sign-event: sign `entry` with the *currently bound*
keypair (the closure reads the module variable, not a captured one)
and issue `holo/clientSignature {signature, requestId: id}`.  If no
keypair is bound or signing throws, the async handler rejects and no
call is made (`none`). -/
def runSignHandler (st : HState) (entry : Val) (id : String) :
    Option (String × Val) :=
  match st.keypair with
  | none => none
  | some kp =>
    match kp.sign entry with
    | POut.ok signature =>
      some ("holo/clientSignature", Val.objSignature (toBase64 signature) id)
    | _ => none

/-- Host-side push of a `{entry, id}` sign-event on event name `ev`:
every handler registered for `ev` fires; the resulting
`holo/clientSignature` calls are returned in order. -/
def emitSignEvent (st : HState) (ev : SignEventName) (entry : Val)
    (id : String) : List (String × Val) :=
  match st.websocket with
  | none => []
  | some ws =>
    (ws.handlers.filter (fun h => h = ev)).filterMap
      (fun _ => runSignHandler st entry id)

/-! ## Call envelope builder (`src/index.ts` _preCall / _postCall) -/

/-- The callParams object built by `_preCall` (the Call Envelope). -/
structure CallParams where
  agentId : Option Val
  happId : Option String
  instanceId : Option String
  zome : Option String
  function : Option String
  args : Val
  signature : Val
deriving DecidableEq, Repr

/-- The `{callString, params}` pair returned by `_preCall`. -/
structure PreCallRet where
  callString : String
  params : CallParams
deriving DecidableEq, Repr

/-- `_preCall(callString, params)`: with no bound keypair, throw
`'trying to call with no keys'` (the async function rejects) without
touching the channel; otherwise sign the canonical serialisation
`JSON.stringify({method: callString, params})` and build the envelope,
redirecting the outer call to the fixed `holo/call` method.  The
module state (including the websocket call log) is returned unchanged:
`_preCall` performs no network call in either branch. -/
def _preCall (st : HState) (callString : String) (params : Val) :
    HState × POut PreCallRet :=
  match st.keypair with
  | none => (st, POut.err "trying to call with no keys")
  | some kp =>
    let parts := callString.splitOn "/"
    match kp.sign (Val.jsonStr callString params) with
    | POut.ok signature =>
      (st, POut.ok
        { callString := "holo/call"
          params :=
            { agentId := getCurrentAgentId st
              happId := st.happId
              instanceId := parts.get? 0
              zome := parts.get? 1
              function := parts.get? 2
              args := params
              signature := toBase64 signature } })
    | POut.err e => (st, POut.err e)
    | POut.hang => (st, POut.hang)

/-! ## Claim theorems: C1 (sign-event round trip) -/

/-- C1: binding a seed-derived keypair to an open channel and emitting
a `{entry, id}` sign-event on the subscribed `agent/<identity>/sign`
event yields exactly one `holo/clientSignature` call, carrying
`requestId = id` and a (base64) signature that verifies against
`entry` under the bound identity string. -/
theorem sign_event_round_trip (st0 : HState) (ws0 : WsState)
    (seed entry : Val) (id : String)
    (hws : st0.websocket = some ws0) (hh : ws0.handlers = []) :
    (sendClientSignature st0 (Keypair.newFromSeed seed)).2 = POut.ok () ∧
    ∃ raw,
      emitSignEvent (sendClientSignature st0 (Keypair.newFromSeed seed)).1
          ⟨Val.hcs0 (Val.signPub seed)⟩ entry id
        = [("holo/clientSignature", Val.objSignature (toBase64 raw) id)] ∧
      verify raw entry (Keypair.newFromSeed seed).pubkeys = POut.ok true := by
  obtain ⟨k0, w0, a0⟩ := st0
  simp only at hws
  subst hws
  refine ⟨rfl, Val.sig entry seed, ?_, ?_⟩
  · simp [sendClientSignature, emitSignEvent, runSignHandler, hh,
      Keypair.newFromSeed, Keypair.sign, Val.truthy, toBase64, encodeId]
  · simp [verify, decodeId, Keypair.newFromSeed, encodeId,
      signVerifyDetached, POut.bind]

/-- C1 witness: stub channel, seed `bytes [1]`, sign-event
`{entry: "abc", id: "7"}`. -/
theorem sign_event_round_trip_witness :
    (HState.mk none (some ⟨[], [], []⟩) none).websocket = some ⟨[], [], []⟩ ∧
    (WsState.mk [] [] []).handlers = [] ∧
    ((sendClientSignature (HState.mk none (some ⟨[], [], []⟩) none)
        (Keypair.newFromSeed (Val.bytes [1]))).2 = POut.ok () ∧
      ∃ raw,
        emitSignEvent
            (sendClientSignature (HState.mk none (some ⟨[], [], []⟩) none)
              (Keypair.newFromSeed (Val.bytes [1]))).1
            ⟨Val.hcs0 (Val.signPub (Val.bytes [1]))⟩ (Val.str "abc") "7"
          = [("holo/clientSignature", Val.objSignature (toBase64 raw) "7")] ∧
        verify raw (Val.str "abc")
            (Keypair.newFromSeed (Val.bytes [1])).pubkeys = POut.ok true) :=
  ⟨rfl, rfl,
    sign_event_round_trip (HState.mk none (some ⟨[], [], []⟩) none)
      ⟨[], [], []⟩ (Val.bytes [1]) (Val.str "abc") "7" rfl rfl⟩

/-! ## Claim theorems: C4 (at most one active subscription) -/

/-- C4 counterexample: binding a second keypair does *not* remove the
previous identity's subscription or handler — after rebinding, both
identities' event names are subscribed and both handlers are
registered. -/
theorem rebind_keeps_old_subscription_counterexample :
    ((sendClientSignature
        ((sendClientSignature (HState.mk none (some ⟨[], [], []⟩) none)
          (Keypair.newFromSeed (Val.bytes [1]))).1)
        (Keypair.newFromSeed (Val.bytes [2]))).1).websocket.map WsState.subs
      = some [⟨Val.hcs0 (Val.signPub (Val.bytes [1]))⟩,
              ⟨Val.hcs0 (Val.signPub (Val.bytes [2]))⟩] ∧
    ((sendClientSignature
        ((sendClientSignature (HState.mk none (some ⟨[], [], []⟩) none)
          (Keypair.newFromSeed (Val.bytes [1]))).1)
        (Keypair.newFromSeed (Val.bytes [2]))).1).websocket.map WsState.handlers
      = some [⟨Val.hcs0 (Val.signPub (Val.bytes [1]))⟩,
              ⟨Val.hcs0 (Val.signPub (Val.bytes [2]))⟩] := by
  decide

/-- C4 (amended): binding a keypair to a session with an open channel
*appends* a subscription and a handler for the new identity's event
name and removes nothing: the previous identity's subscription and
handler stay active, so a rebound session has more than one active
subscription.  The bound keypair itself is replaced (handlers read
the current one). -/
theorem rebind_appends_subscription (st : HState) (ws : WsState)
    (kp : Keypair) (h : st.websocket = some ws) :
    ∃ ws1, (sendClientSignature st kp).1.websocket = some ws1 ∧
      ws1.subs = ws.subs ++ [⟨Val.hcs0 kp.signPub⟩] ∧
      ws1.handlers = ws.handlers ++ [⟨Val.hcs0 kp.signPub⟩] ∧
      (sendClientSignature st kp).1.keypair = some kp := by
  obtain ⟨k0, w0, a0⟩ := st
  simp only at h
  subst h
  exact ⟨_, rfl, rfl, rfl, rfl⟩

/-- C4 amended-claim witness: appending observed on a concrete
already-bound state. -/
theorem rebind_appends_subscription_witness :
    ((sendClientSignature (HState.mk none (some ⟨[], [], []⟩) none)
        (Keypair.newFromSeed (Val.bytes [1]))).1).websocket
      = some (WsState.mk
          [("holo/identify", Val.objAgentId (Val.hcs0 (Val.signPub (Val.bytes [1]))))]
          [⟨Val.hcs0 (Val.signPub (Val.bytes [1]))⟩]
          [⟨Val.hcs0 (Val.signPub (Val.bytes [1]))⟩]) ∧
    ∃ ws1,
      (sendClientSignature
          ((sendClientSignature (HState.mk none (some ⟨[], [], []⟩) none)
            (Keypair.newFromSeed (Val.bytes [1]))).1)
          (Keypair.newFromSeed (Val.bytes [2]))).1.websocket = some ws1 ∧
      ws1.subs = (WsState.mk
          [("holo/identify", Val.objAgentId (Val.hcs0 (Val.signPub (Val.bytes [1]))))]
          [⟨Val.hcs0 (Val.signPub (Val.bytes [1]))⟩]
          [⟨Val.hcs0 (Val.signPub (Val.bytes [1]))⟩]).subs
          ++ [⟨Val.hcs0 (Keypair.newFromSeed (Val.bytes [2])).signPub⟩] ∧
      ws1.handlers = (WsState.mk
          [("holo/identify", Val.objAgentId (Val.hcs0 (Val.signPub (Val.bytes [1]))))]
          [⟨Val.hcs0 (Val.signPub (Val.bytes [1]))⟩]
          [⟨Val.hcs0 (Val.signPub (Val.bytes [1]))⟩]).handlers
          ++ [⟨Val.hcs0 (Keypair.newFromSeed (Val.bytes [2])).signPub⟩] ∧
      (sendClientSignature
          ((sendClientSignature (HState.mk none (some ⟨[], [], []⟩) none)
            (Keypair.newFromSeed (Val.bytes [1]))).1)
          (Keypair.newFromSeed (Val.bytes [2]))).1.keypair
        = some (Keypair.newFromSeed (Val.bytes [2])) :=
  ⟨rfl,
    rebind_appends_subscription
      ((sendClientSignature (HState.mk none (some ⟨[], [], []⟩) none)
        (Keypair.newFromSeed (Val.bytes [1]))).1)
      (WsState.mk
        [("holo/identify", Val.objAgentId (Val.hcs0 (Val.signPub (Val.bytes [1]))))]
        [⟨Val.hcs0 (Val.signPub (Val.bytes [1]))⟩]
        [⟨Val.hcs0 (Val.signPub (Val.bytes [1]))⟩])
      (Keypair.newFromSeed (Val.bytes [2])) rfl⟩

/-! ## Claim theorems: C10 (getCurrentAgentId) -/

/-- C10: `getCurrentAgentId` returns `undefined` (not a failure) when
no keypair is bound; when one is bound it returns the hcs0 encoding
of the signing public key only — which is never the identity string
encoding `signPub ‖ encPub`. -/
theorem getCurrentAgentId_spec (st : HState) :
    (st.keypair = none → getCurrentAgentId st = none) ∧
    (∀ kp, st.keypair = some kp →
      getCurrentAgentId st = some (Val.hcs0 kp.signPub) ∧
      Val.hcs0 kp.signPub ≠ encodeId kp.signPub kp.encPub) := by
  refine ⟨fun h => ?_, fun kp h => ⟨?_, fun hc => Val.noConfusion hc⟩⟩
  · simp [getCurrentAgentId, h]
  · simp [getCurrentAgentId, h]

/-- C10 witness: the unbound state yields `undefined`; a bound state
yields the hcs0 signing-key encoding. -/
theorem getCurrentAgentId_spec_witness :
    getCurrentAgentId (HState.mk none none none) = none ∧
    getCurrentAgentId
        (HState.mk (some (Keypair.newFromSeed (Val.bytes [1]))) none none)
      = some (Val.hcs0 (Keypair.newFromSeed (Val.bytes [1])).signPub) :=
  ⟨(getCurrentAgentId_spec (HState.mk none none none)).1 rfl,
    ((getCurrentAgentId_spec
        (HState.mk (some (Keypair.newFromSeed (Val.bytes [1]))) none none)).2
      (Keypair.newFromSeed (Val.bytes [1])) rfl).1⟩

/-! ## Claim theorems: C7 (_preCall) -/

/-- C7: `_preCall` with no bound keypair rejects with the NoKeys error
and leaves the module state — in particular the websocket call log —
untouched (no network call); with a bound seed-derived keypair it
signs the canonical serialisation `JSON.stringify({method, params})`
and redirects the outer call to the fixed multiplexing method
`holo/call`, never the original method name. -/
theorem preCall_spec (st : HState) (callString : String) (params : Val) :
    (st.keypair = none →
      _preCall st callString params
        = (st, POut.err "trying to call with no keys")) ∧
    (∀ seed, st.keypair = some (Keypair.newFromSeed seed) →
      (_preCall st callString params).1 = st ∧
      ∃ r, (_preCall st callString params).2 = POut.ok r ∧
        r.callString = "holo/call" ∧
        r.params.signature
          = toBase64 (Val.sig (Val.jsonStr callString params) seed) ∧
        r.params.args = params) := by
  constructor
  · intro h
    simp [_preCall, h]
  · intro seed h
    have heq : _preCall st callString params
        = (st, POut.ok
          { callString := "holo/call"
            params :=
              { agentId := some (Val.hcs0 (Val.signPub seed))
                happId := st.happId
                instanceId := (callString.splitOn "/").get? 0
                zome := (callString.splitOn "/").get? 1
                function := (callString.splitOn "/").get? 2
                args := params
                signature := toBase64 (Val.sig (Val.jsonStr callString params) seed) } }) := by
      simp [_preCall, h, Keypair.newFromSeed, Keypair.sign, Val.truthy,
        getCurrentAgentId, toBase64]
    rw [heq]
    exact ⟨rfl, _, rfl, rfl, rfl, rfl⟩

/-! ## Response postprocessing (`src/index.ts` _postCall) -/

/-- Parsed JSON values (`JSON.parse` output).  Objects are association
lists; the code under verification never produces duplicate keys. -/
inductive Json where
  | null
  | bool (b : Bool)
  | num (n : Int)
  | str (s : String)
  | arr (elems : List Json)
  | obj (fields : List (String × Json))

/-- JavaScript property access `j[k]` on a parsed JSON value:
`undefined` (`none`) unless `j` is an object with the field.  (Access
on `null` throws a TypeError, which `_postCall`'s catch block absorbs
with the same observable outcome as `undefined`.) -/
def jlookup (j : Json) (k : String) : Option Json :=
  match j with
  | Json.obj fields => List.lookup k fields
  | _ => none

/-- JavaScript truthiness of a parsed JSON value. -/
def Json.truthy : Json → Bool
  | Json.null => false
  | Json.bool b => b
  | Json.num n => n ≠ 0
  | Json.str s => s ≠ ""
  | _ => true

/-- The argument of `_postCall`: the raw response string together with
its parse outcome (`JSON.parse` either yields a value or throws). -/
inductive JsResponse where
  | parsed (j : Json)
  | invalid (raw : String)

/-- The condition of `_postCall`'s guard:
`responseJson.Err && responseJson.Err.code === 401`. -/
def postCallHook (j : Json) : Bool :=
  match jlookup j "Err" with
  | none => false
  | some e =>
    e.truthy &&
      (match jlookup e "code" with
       | some (Json.num n) => n == 401
       | _ => false)

/-- `_postCall(response)`: parse the response; when it carries
`{Err: {code: 401}}` fire `triggerLoginPrompt()` (once, not awaited);
parse failures are caught and logged.  The original response is
always returned unchanged.  The first component counts the
re-authentication hook invocations. -/
def _postCall (r : JsResponse) : Nat × JsResponse :=
  match r with
  | JsResponse.invalid _ => (0, r)
  | JsResponse.parsed j => (if postCallHook j then 1 else 0, r)

/-- Spec-side reading of "the response encodes `{Err: {code: 401}}`":
the parsed value has an `Err` field whose `code` field is the number
401. -/
def encodesAuthError : JsResponse → Bool
  | JsResponse.invalid _ => false
  | JsResponse.parsed j =>
    match jlookup j "Err" with
    | some e =>
      (match jlookup e "code" with
       | some (Json.num n) => n == 401
       | _ => false)
    | none => false

/-! ## Claim theorems: C6 (_postCall authorization hook) -/

/-- C6: every response is returned to the caller unchanged, and the
re-authentication hook fires exactly once precisely when the response
encodes `{Err: {code: 401}}` — otherwise it does not fire at all. -/
theorem postCall_auth_hook (r : JsResponse) :
    (_postCall r).2 = r ∧
    (_postCall r).1 = (if encodesAuthError r then 1 else 0) := by
  refine ⟨by cases r <;> rfl, ?_⟩
  cases r with
  | invalid raw => rfl
  | parsed j =>
    have hcond : postCallHook j = encodesAuthError (JsResponse.parsed j) := by
      simp only [postCallHook, encodesAuthError]
      cases heq : jlookup j "Err" with
      | none => rfl
      | some e =>
        cases e <;> simp [Json.truthy, jlookup]
    simp [_postCall, hcond]

/-! ## Multi-recipient encryption (`keypair.js` encrypt / decrypt) -/

namespace Keypair

/-- The per-recipient fan-out loop of `encrypt`: for each recipient
identity string, decode it, derive the sender-side session key with
that recipient's public encryption key, draw a nonce (threaded in
`nonces`) and AEAD-wrap the ephemeral symmetric secret, pushing the
`(nonce, cipher)` pair.  A recipient id that fails to decode leaves
the inner promise unsettled. -/
def encryptSlots (kp : Keypair) (symSecret ad : Val) :
    List Val → List Val → POut (List Val)
  | [], _ => POut.ok []
  | rid :: rest, n :: ns =>
    match decodeId rid with
    | POut.ok (_, recipPub) =>
      match kxServerTx kp.encPub kp.encPriv recipPub with
      | POut.ok tx =>
        match encryptSlots kp symSecret ad rest ns with
        | POut.ok out => POut.ok (n :: aeadEncrypt symSecret ad n tx :: out)
        | POut.err e => POut.err e
        | POut.hang => POut.hang
      | _ => POut.hang
    | _ => POut.hang
  | _ :: _, [] => POut.hang

/-- `encrypt(recipientIds, data, adata)` with the ephemeral symmetric
secret, per-recipient nonces and payload nonce threaded explicitly.
The output is the msgpacked flat array
`[n1, c1, ..., nk, ck, nP, cP]` (modelled as the decoded list).  With
an empty recipient list the fan-out loop never resolves, so the
promise never settles. -/
def encrypt (kp : Keypair) (recipientIds : List Val) (data adata : Val)
    (symSecret : Val) (nonces : List Val) (pnonce : Val) : POut (List Val) :=
  if recipientIds.isEmpty then POut.hang
  else
    let ad := jsOrNull adata
    match encryptSlots kp symSecret ad recipientIds nonces with
    | POut.ok out =>
      POut.ok (out ++ [pnonce, aeadEncrypt data ad pnonce symSecret])
    | POut.err e => POut.err e
    | POut.hang => POut.hang

/-- The wrapped-secret scan of `decrypt`: try authenticated decryption
of each `(nonce, cipher)` pair at even index `i` while `i <
cipher.length - 2` (the payload pair is excluded), keeping the last
success (`symSecret` is overwritten on success, kept on a caught
failure). -/
def secretLoop (rx ad : Val) : List Val → Option Val → Option Val
  | n :: c :: rest, acc =>
    if rest.isEmpty then acc
    else
      secretLoop rx ad rest
        (match aeadDecrypt c ad n rx with
         | some m => some m
         | none => acc)
  | _, acc => acc

/-- `decrypt(sId, cipher, adata)`: decode the sender identity, derive
the recipient-side session key, scan the wrapped-secret slots; if
none authenticates, reject with the NotARecipient error, otherwise
decrypt the final payload pair with the recovered symmetric secret
(`sodium.to_string` of the plaintext is modelled as the identity). -/
def decrypt (kp : Keypair) (sId : Val) (cipher : List Val) (adata : Val) :
    POut Val :=
  let ad := jsOrNull adata
  match decodeId sId with
  | POut.ok (_, srcEncPub) =>
    match kxClientRx kp.encPub kp.encPriv srcEncPub with
    | POut.ok rx =>
      match secretLoop rx ad cipher none with
      | none => POut.err "could not decrypt - not a recipient?"
      | some symSecret =>
        match aeadDecrypt (cipher.getD (cipher.length - 1) Val.undef) ad
            (cipher.getD (cipher.length - 2) Val.undef) symSecret with
        | some m => POut.ok m
        | none => POut.hang
    | _ => POut.hang
  | POut.err e => POut.err e
  | POut.hang => POut.hang

end Keypair

/-- The slot list produced by the fan-out loop for seed-derived
recipients: `(nonce, wrap)` pairs where each wrap encrypts the
symmetric secret under the session key of the sender seed and that
recipient seed. -/
def mkSlots (senderSeed symSecret ad : Val) : List Val → List Val → List Val
  | s :: ss, n :: ns =>
    n :: Val.aead symSecret ad n (Val.sessionKey senderSeed s)
      :: mkSlots senderSeed symSecret ad ss ns
  | _, _ => []

/-- The fan-out loop on seed-derived recipient identities produces
exactly the `mkSlots` list. -/
theorem encryptSlots_eq_mkSlots (senderSeed symSecret ad : Val)
    (seeds nonces : List Val) (h : nonces.length = seeds.length) :
    Keypair.encryptSlots (Keypair.newFromSeed senderSeed) symSecret ad
        (seeds.map (fun s => (Keypair.newFromSeed s).pubkeys)) nonces
      = POut.ok (mkSlots senderSeed symSecret ad seeds nonces) := by
  induction seeds generalizing nonces with
  | nil =>
    cases nonces with
    | nil => rfl
    | cons n ns => simp at h
  | cons s ss ih =>
    cases nonces with
    | nil => simp at h
    | cons n ns =>
      simp only [List.length_cons, Nat.succ.injEq] at h
      have hrec := ih ns h
      simp only [List.map_cons, Keypair.encryptSlots, Keypair.newFromSeed,
        encodeId, decodeId, kxServerTx, mkSlots, aeadEncrypt] at hrec ⊢
      rw [hrec]

/-- A list extended with two elements is never empty. -/
theorem append_two_not_isEmpty (l : List Val) (a b : Val) :
    (l ++ [a, b]).isEmpty = false := by
  cases l <;> rfl

/-- The wrapped-secret scan over the slot list followed by the payload
pair: it never touches the payload pair, and ends with the symmetric
secret exactly when some slot's session key matches `rx` (all slots
wrap the same secret, so the last success is that secret), otherwise
with the accumulator. -/
theorem secretLoop_mkSlots (senderSeed symSecret ad rx pn pc : Val)
    (seeds nonces : List Val) (h : nonces.length = seeds.length)
    (acc : Option Val) :
    Keypair.secretLoop rx ad
        (mkSlots senderSeed symSecret ad seeds nonces ++ [pn, pc]) acc
      = if seeds.any (fun s => Val.sessionKey senderSeed s = rx)
        then some symSecret else acc := by
  induction seeds generalizing nonces acc with
  | nil =>
    cases nonces with
    | nil => simp [mkSlots, Keypair.secretLoop]
    | cons n ns => simp at h
  | cons s ss ih =>
    cases nonces with
    | nil => simp at h
    | cons n ns =>
      simp only [List.length_cons, Nat.succ.injEq] at h
      have hdec :
          (match aeadDecrypt (Val.aead symSecret ad n (Val.sessionKey senderSeed s))
              ad n rx with
            | some m => some m
            | none => acc)
            = if Val.sessionKey senderSeed s = rx then some symSecret else acc := by
        by_cases hk : Val.sessionKey senderSeed s = rx <;> simp [aeadDecrypt, hk]
      rw [mkSlots, List.cons_append, List.cons_append, Keypair.secretLoop,
        append_two_not_isEmpty, if_neg Bool.false_ne_true, hdec, ih ns h]
      by_cases hk : Val.sessionKey senderSeed s = rx
      · simp [hk]
      · simp [hk]

/-- Element just before the last of a two-element extension. -/
theorem getD_append_two_penult (l : List Val) (a b d : Val) :
    (l ++ [a, b]).getD ((l ++ [a, b]).length - 2) d = a := by
  induction l with
  | nil => rfl
  | cons x xs ih =>
    simpa [List.getD, Nat.succ_sub_one] using ih

/-- Last element of a two-element extension. -/
theorem getD_append_two_last (l : List Val) (a b d : Val) :
    (l ++ [a, b]).getD ((l ++ [a, b]).length - 1) d = b := by
  induction l with
  | nil => rfl
  | cons x xs ih =>
    simpa [List.getD, Nat.succ_sub_one] using ih

/-! ## Claim theorems: C3 (multi-recipient round trip) -/

/-- C3: encrypting data for a (nonempty) list of seed-derived
recipients lets every recipient decrypt the ciphertext back to the
plaintext using its own private encryption key, while a keypair whose
seed is not among the recipients fails with the NotARecipient
rejection. -/
theorem multi_recipient_round_trip (senderSeed xSeed : Val)
    (seeds : List Val) (data adata symSecret pnonce : Val)
    (nonces : List Val)
    (hne : seeds ≠ []) (hlen : nonces.length = seeds.length)
    (hx : xSeed ∉ seeds) :
    ∃ cipher,
      (Keypair.newFromSeed senderSeed).encrypt
          (seeds.map (fun s => (Keypair.newFromSeed s).pubkeys))
          data adata symSecret nonces pnonce = POut.ok cipher ∧
      (∀ i (hi : i < seeds.length),
        (Keypair.newFromSeed (seeds.get ⟨i, hi⟩)).decrypt
            (Keypair.newFromSeed senderSeed).pubkeys cipher adata
          = POut.ok data) ∧
      (Keypair.newFromSeed xSeed).decrypt
          (Keypair.newFromSeed senderSeed).pubkeys cipher adata
        = POut.err "could not decrypt - not a recipient?" := by
  refine ⟨mkSlots senderSeed symSecret (jsOrNull adata) seeds nonces
      ++ [pnonce, Val.aead data (jsOrNull adata) pnonce symSecret],
    ?_, ?_, ?_⟩
  · have hmap :
        (seeds.map (fun s => (Keypair.newFromSeed s).pubkeys)).isEmpty
          = false := by
      cases seeds with
      | nil => exact absurd rfl hne
      | cons a l => rfl
    simp only [Keypair.encrypt, hmap, Bool.false_eq_true, if_false]
    rw [encryptSlots_eq_mkSlots senderSeed symSecret (jsOrNull adata)
      seeds nonces hlen]
    simp [aeadEncrypt]
  · intro i hi
    simp only [Keypair.decrypt, Keypair.newFromSeed, encodeId, decodeId,
      kxClientRx]
    rw [secretLoop_mkSlots senderSeed symSecret (jsOrNull adata)
      (Val.sessionKey senderSeed (seeds.get ⟨i, hi⟩)) pnonce
      (Val.aead data (jsOrNull adata) pnonce symSecret) seeds nonces hlen none]
    have hany : seeds.any
        (fun s => Val.sessionKey senderSeed s
          = Val.sessionKey senderSeed (seeds.get ⟨i, hi⟩)) = true :=
      List.any_eq_true.mpr
        ⟨seeds.get ⟨i, hi⟩, List.get_mem seeds i hi, by simp⟩
    rw [hany, if_pos rfl]
    rw [getD_append_two_last, getD_append_two_penult]
    simp [aeadDecrypt]
  · simp only [Keypair.decrypt, Keypair.newFromSeed, encodeId, decodeId,
      kxClientRx]
    rw [secretLoop_mkSlots senderSeed symSecret (jsOrNull adata)
      (Val.sessionKey senderSeed xSeed) pnonce
      (Val.aead data (jsOrNull adata) pnonce symSecret) seeds nonces hlen none]
    have hnone : seeds.any
        (fun s => Val.sessionKey senderSeed s
          = Val.sessionKey senderSeed xSeed) = false := by
      apply Bool.eq_false_iff.mpr
      intro hc
      obtain ⟨s, hs, hps⟩ := List.any_eq_true.mp hc
      have heq2 := of_decide_eq_true hps
      injection heq2 with h1 h2
      subst h2
      exact hx hs
    rw [hnone, if_neg Bool.false_ne_true]

/-- C3 witness: sender seed `bytes [0]`, three recipients, and a
fourth keypair outside the recipient list. -/
theorem multi_recipient_round_trip_witness :
    ([Val.bytes [1], Val.bytes [2], Val.bytes [3]] : List Val) ≠ [] ∧
    ([Val.bytes [10], Val.bytes [11], Val.bytes [12]] : List Val).length
      = ([Val.bytes [1], Val.bytes [2], Val.bytes [3]] : List Val).length ∧
    Val.bytes [4] ∉ ([Val.bytes [1], Val.bytes [2], Val.bytes [3]] : List Val) ∧
    (∃ cipher,
      (Keypair.newFromSeed (Val.bytes [0])).encrypt
          (([Val.bytes [1], Val.bytes [2], Val.bytes [3]] : List Val).map
            (fun s => (Keypair.newFromSeed s).pubkeys))
          (Val.str "hello") Val.undef (Val.bytes [9])
          [Val.bytes [10], Val.bytes [11], Val.bytes [12]] (Val.bytes [13])
        = POut.ok cipher ∧
      (∀ i (hi : i < ([Val.bytes [1], Val.bytes [2], Val.bytes [3]] : List Val).length),
        (Keypair.newFromSeed
            (([Val.bytes [1], Val.bytes [2], Val.bytes [3]] : List Val).get ⟨i, hi⟩)).decrypt
            (Keypair.newFromSeed (Val.bytes [0])).pubkeys cipher Val.undef
          = POut.ok (Val.str "hello")) ∧
      (Keypair.newFromSeed (Val.bytes [4])).decrypt
          (Keypair.newFromSeed (Val.bytes [0])).pubkeys cipher Val.undef
        = POut.err "could not decrypt - not a recipient?") :=
  ⟨by decide, by decide, by decide,
    multi_recipient_round_trip (Val.bytes [0]) (Val.bytes [4])
      [Val.bytes [1], Val.bytes [2], Val.bytes [3]]
      (Val.str "hello") Val.undef (Val.bytes [9]) (Val.bytes [13])
      [Val.bytes [10], Val.bytes [11], Val.bytes [12]]
      (by decide) (by decide) (by decide)⟩

/-- C7 witness: a concrete unbound state rejects without touching the
state, and a concrete bound state produces the redirected signed
envelope. -/
theorem preCall_spec_witness :
    _preCall (HState.mk none none none) "inst/zome/fn" (Val.str "p")
      = (HState.mk none none none, POut.err "trying to call with no keys") ∧
    ((_preCall (HState.mk (some (Keypair.newFromSeed (Val.bytes [1]))) none none)
        "inst/zome/fn" (Val.str "p")).1
      = HState.mk (some (Keypair.newFromSeed (Val.bytes [1]))) none none ∧
    ∃ r, (_preCall (HState.mk (some (Keypair.newFromSeed (Val.bytes [1]))) none none)
        "inst/zome/fn" (Val.str "p")).2 = POut.ok r ∧
      r.callString = "holo/call" ∧
      r.params.signature
        = toBase64 (Val.sig (Val.jsonStr "inst/zome/fn" (Val.str "p")) (Val.bytes [1])) ∧
      r.params.args = Val.str "p") :=
  ⟨(preCall_spec (HState.mk none none none) "inst/zome/fn" (Val.str "p")).1 rfl,
    (preCall_spec (HState.mk (some (Keypair.newFromSeed (Val.bytes [1]))) none none)
      "inst/zome/fn" (Val.str "p")).2 (Val.bytes [1]) rfl⟩
